import Mathlib

/-!
Verification of the chess backend: the rules engine (game/moves.py) and the
socket gateway protocol checks (app/sockets.py), embedded shallowly.

Conventions of the embedding:
* board coordinates are unbounded integers, as Python ints are;
* Python sets of coordinate pairs become Finset (ℤ × ℤ);
* the float arithmetic of the geometry helpers (slope, sign normalisation)
  is embedded as exact rational arithmetic; on the sign values 0, ±1 and on
  the concrete lines evaluated below the float computation is exact, so the
  two agree;
* a Python function that returns either False or a set of moves returns
  Option (Finset (ℤ × ℤ)) here, with none standing for False; the Python
  truthiness of a set result is its nonemptiness;
* the board, an OrderedDict with one entry per square, is a function from
  positions to Option of a piece.
-/

set_option maxRecDepth 8000

namespace ChessSpec

abbrev Pos := ℤ × ℤ

/-- The two sides. The module constant game.player_down is the "down"
colour; the other side is "up". Python compares colours with the identity
test on interned module-level constants, which for these values coincides
with string equality, so Color carries decidable equality. -/
inductive Color where
  | down
  | up
deriving DecidableEq

inductive PieceKind where
  | rook
  | bishop
  | knight
  | pawn
  | king
  | queen
deriving DecidableEq

/-- A piece: its kind, its colour (self.color) and its current position
(self.position). -/
structure ChessPiece where
  kind : PieceKind
  color : Color
  position : Pos
deriving DecidableEq

/-- The board: every square maps to a piece or to None. -/
abbrev Board := Pos → Option ChessPiece

/-- _check_range(move, min_, max_): both coordinates lie within
[min_, max_), the maximum excluded. The callers always pass the defaults
0 and 8. -/
def check_range (move : Pos) (min_ max_ : ℤ) : Bool :=
  decide (min_ ≤ move.1 ∧ move.1 < max_) && decide (min_ ≤ move.2 ∧ move.2 < max_)

/-- _safe_divide(a, b, default) at the _diff_points call sites: the axis
delta divided by its absolute value, x / fabs(x), with default 0 when the
delta is zero. The quotient is exactly -1.0, 0.0 or 1.0 - the sign of the
delta - so the embedding returns the integer sign. -/
def sign_of (x : ℤ) : ℤ :=
  if x = 0 then 0 else if 0 < x then 1 else -1

/-- _line(end, start=start), the call shape used by _filter_line: the
membership test of the line through start and end. The slope is computed
by _safe_divide with the "vertical" default when the horizontal delta is
zero; a vertical line tests the x coordinate against end.x, and otherwise
the test is y - end.y == slope * (x - end.x) with slope =
(start.y - end.y) / (start.x - end.x). With exact arithmetic and the
horizontal delta nonzero in that branch, the sloped test is equivalent to
the cross-multiplied integer equation used here. (Python evaluates the
test in floating point; on every line the concrete theorems below touch -
vertical, horizontal and unit-slope lines - the float computation is exact
and agrees with the exact one.) -/
def line (endP start : Pos) : Pos → Bool :=
  if start.1 - endP.1 = 0 then fun p => decide (p.1 = endP.1)
  else fun p =>
    decide ((p.2 - endP.2) * (start.1 - endP.1) =
      (start.2 - endP.2) * (p.1 - endP.1))

/-- _diff_points(start, end): the per-axis sign of start - end, computed
as x / fabs(x) with safe default 0 on a zero axis. -/
def diff_points (start endP : Pos) : ℤ × ℤ :=
  (sign_of (start.1 - endP.1), sign_of (start.2 - endP.2))

/-- Python lexicographic <= on coordinate pairs. -/
def tup_le (a b : Pos) : Bool :=
  decide (a.1 < b.1) || (decide (a.1 = b.1) && decide (a.2 ≤ b.2))

/-- _end_point_check(diff): when an axis decreases (-1 occurs in diff) the
candidate must satisfy move <= end, otherwise move >= end, both in the
lexicographic tuple order. -/
def end_point_check (diff : ℤ × ℤ) : Pos → Pos → Bool :=
  if diff.1 = -1 ∨ diff.2 = -1 then fun move endP => tup_le move endP
  else fun move endP => tup_le endP move

/-- _clean_moves: keep the in-range squares of the generated set. The
source also subtracts the singleton set containing args, but args is the
full positional-argument tuple (self, x, y); a triple containing the piece
object never equals a coordinate pair, so that subtraction removes nothing
and in particular the square (x, y) itself is NOT removed. -/
def clean_moves (moves : Finset Pos) : Finset Pos :=
  moves.filter (fun m => check_range m 0 8 = true)

/-- _filter_line: keep the generated moves that lie on the line through
start and end, are directed from start towards end (same per-axis signs)
and do not overshoot end. -/
def filter_line (moves : Finset Pos) (start endP : Pos) : Finset Pos :=
  moves.filter (fun m =>
    line endP start m = true ∧
    diff_points start m = diff_points start endP ∧
    end_point_check (diff_points start endP) m endP = true)

/-- _check_blocks: False when the inner result is falsy; otherwise the
moves pass iff the number of empty squares among them is the move count or
one less, that is, iff at most one of the squares is occupied - the
occupied one is not required to be the end square. -/
def check_blocks (board : Board) (r : Option (Finset Pos)) : Option (Finset Pos) :=
  match r with
  | none => none
  | some moves =>
    if moves = ∅ then none
    else if (moves.filter fun i => board i = none).card = moves.card ∨
            (moves.filter fun i => board i = none).card = moves.card - 1 then
      some moves
    else none

/-- _check_move_found: False when the inner result is falsy, when the end
square is not among the moves, or when the end square holds a piece of the
moving colour; otherwise the moves pass through. -/
def check_move_found (c : Color) (endP : Pos) (board : Board)
    (r : Option (Finset Pos)) : Option (Finset Pos) :=
  match r with
  | none => none
  | some moves =>
    if moves = ∅ then none
    else if endP ∉ moves then none
    else
      match board endP with
      | none => some moves
      | some item => if item.color = c then none else some moves

/-- Piece.move(end, board): board[self.position] = None, then
self.position = end, then board[end] = self. After the sequence the end
square holds the updated piece (this write happens last, so it wins when
end equals the old position), the old position is empty when distinct from
end, and every other square keeps its occupant. The result is the updated
piece and the updated board. -/
def Piece.move (p : ChessPiece) (endP : Pos) (b : Board) : ChessPiece × Board :=
  ({ p with position := endP },
   fun q =>
     if q = endP then some { p with position := endP }
     else if q = p.position then none else b q)

namespace Rook

/-- Rook.find(x, y): the full rank and the full file, range-cleaned. -/
def find (x y : ℤ) : Finset Pos :=
  clean_moves (((Finset.range 8).image fun i : ℕ => (x, (i : ℤ))) ∪
               ((Finset.range 8).image fun i : ℕ => ((i : ℤ), y)))

/-- Rook.check_move: _check_move_found of _check_blocks of _filter_line
over find at the rook position. -/
def check_move (c : Color) (pos endP : Pos) (board : Board) :
    Option (Finset Pos) :=
  check_move_found c endP board
    (check_blocks board (some (filter_line (find pos.1 pos.2) pos endP)))

end Rook

namespace Bishop

/-- Bishop.find(x, y): the four diagonal rays, steps 1..7, range-cleaned. -/
def find (x y : ℤ) : Finset Pos :=
  clean_moves ((Finset.Icc (1 : ℤ) 7).biUnion fun k =>
    {(x + k, y + k), (x + k, y - k), (x - k, y + k), (x - k, y - k)})

/-- Bishop.check_move: the same pipeline as the rook. -/
def check_move (c : Color) (pos endP : Pos) (board : Board) :
    Option (Finset Pos) :=
  check_move_found c endP board
    (check_blocks board (some (filter_line (find pos.1 pos.2) pos endP)))

end Bishop

namespace Knight

/-- Knight.find(x, y): the eight L-shaped offsets, range-cleaned. -/
def find (x y : ℤ) : Finset Pos :=
  clean_moves {(x - 1, y - 2), (x - 1, y + 2), (x + 1, y - 2), (x + 1, y + 2),
               (x - 2, y - 1), (x - 2, y + 1), (x + 2, y - 1), (x + 2, y + 1)}

/-- Knight.check_move: only _check_move_found over find. -/
def check_move (c : Color) (pos endP : Pos) (board : Board) :
    Option (Finset Pos) :=
  check_move_found c endP board (some (find pos.1 pos.2))

end Knight

namespace Pawn

/-- Pawn init: (y_initial, y_add) is (6, -1) for the "down" colour and
(1, 1) otherwise. -/
def y_initial (c : Color) : ℤ := if c = Color.down then 6 else 1

def y_add (c : Color) : ℤ := if c = Color.down then -1 else 1

/-- Pawn.find(x, y): one square forward, and a second square forward when
the pawn still stands on its initial rank; range-cleaned. -/
def find (c : Color) (x y : ℤ) : Finset Pos :=
  clean_moves
    (if y = y_initial c then {(x, y + y_add c), (x, y + y_add c * 2)}
     else {(x, y + y_add c)})

/-- Pawn.check_move: _check_blocks of _check_move_found, the order being
reversed relative to rook and bishop, over find at the pawn position. -/
def check_move (c : Color) (pos endP : Pos) (board : Board) :
    Option (Finset Pos) :=
  check_blocks board (check_move_found c endP board (some (find c pos.1 pos.2)))

end Pawn

namespace King

/-- King.find(x, y): the product of the three x-offsets and the three
y-offsets (nine squares, the own square among them), range-cleaned. -/
def find (x y : ℤ) : Finset Pos :=
  clean_moves {(x - 1, y + 1), (x - 1, y - 1), (x - 1, y),
               (x + 1, y + 1), (x + 1, y - 1), (x + 1, y),
               (x, y + 1), (x, y - 1), (x, y)}

/-- King.check_move: only _check_move_found over find. -/
def check_move (c : Color) (pos endP : Pos) (board : Board) :
    Option (Finset Pos) :=
  check_move_found c endP board (some (find pos.1 pos.2))

end King

namespace Queen

/-- Queen.find(x, y): the union of the internal bishop find and rook find
from the same coordinates. -/
def find (x y : ℤ) : Finset Pos := Bishop.find x y ∪ Rook.find x y

/-- Queen.check_move: only _filter_line is applied to find; the board
argument is received but never consulted, and no blocking or
destination-colour check runs. -/
def check_move (pos endP : Pos) (board : Board) : Finset Pos :=
  filter_line (find pos.1 pos.2) pos endP

end Queen

namespace Sockets

/-- A decoded JSON message: the fields read by _parse_input through
_json.get, each possibly absent. The payload type of data is abstract. -/
structure JsonMsg (α : Type) where
  type_ : Option String
  data : Option α
deriving DecidableEq

/-- The keys of the type_funcs dispatch table. -/
def type_funcs : List String := ["join_queue", "move", "game_operation"]

inductive ParseError where
  | unexpectedType
  | noData
deriving DecidableEq

/-- CoolSocket._parse_input: the type check runs first (a type absent from
the dispatch table raises the unexpected-type error), then the data check
(absent data raises the no-data error); neither error is caught here. -/
def parse_input {α : Type} (m : JsonMsg α) : Except ParseError (String × α) :=
  match m.type_ with
  | none => .error .unexpectedType
  | some t =>
    if t ∈ type_funcs then
      match m.data with
      | none => .error .noData
      | some d => .ok (t, d)
    else .error .unexpectedType

/-- The handler invocation performed by type_funcs of the parsed type,
applied to the socket and the data. -/
structure HandlerCall (α : Type) where
  htype : String
  hdata : α
deriving DecidableEq

/-- CoolSocket._process_message: parse, then dispatch to the handler of
the parsed type; parse errors propagate, there is no local handler. -/
def process_message {α : Type} (m : JsonMsg α) :
    Except ParseError (HandlerCall α) :=
  match parse_input m with
  | .error e => .error e
  | .ok (t, d) => .ok ⟨t, d⟩

/-- The observable effects of one received_message call: the close frames
sent in order (close code when one was passed, and the reason), whether
the JSON decode was attempted, the handler dispatch that happened, and
whether an exception escaped the call. -/
structure RecvTrace (α : Type) where
  closes : List (Option ℕ × String)
  json_decode_attempted : Bool
  dispatched : Option (HandlerCall α)
  raised : Bool
deriving DecidableEq

/-- CoolSocket.received_message, with json.loads abstracted as a decode
function on the raw bytes. The oversize branch calls close but does not
return, so control always falls through to the decode and, when the decode
and the checks succeed, to the handler dispatch. -/
def received_message {α : Type} (decode : List ℕ → Option (JsonMsg α))
    (data : List ℕ) : RecvTrace α :=
  let closes0 : List (Option ℕ × String) :=
    if data.length > 1000 then [(some 1856, "message too long")] else []
  match decode data with
  | none => ⟨closes0 ++ [(none, "Input is not json")], true, none, true⟩
  | some j =>
    match process_message j with
    | .error _ => ⟨closes0, true, none, true⟩
    | .ok call => ⟨closes0, true, some call, false⟩

end Sockets

/-! Boards and inputs used by the claim theorems. -/

/-- A board holding only an "up" pawn on (0, 3); every other square, in
particular the rest of file 0, is empty. -/
def c1_board : Board := fun p =>
  if p = ((0 : ℤ), (3 : ℤ)) then some ⟨.pawn, .up, (0, 3)⟩ else none

/-- A board holding two "down" pieces, at (0, 1) and (0, 3). -/
def c3_board : Board := fun p =>
  if p = ((0 : ℤ), (1 : ℤ)) then some ⟨.pawn, .down, (0, 1)⟩
  else if p = ((0 : ℤ), (3 : ℤ)) then some ⟨.bishop, .down, (0, 3)⟩
  else none

/-- A decode result standing for a well-formed join_queue frame. -/
def c4_decode : List ℕ → Option (Sockets.JsonMsg ℕ) :=
  fun _ => some ⟨some "join_queue", some 7⟩

/-- A raw frame of 1001 bytes, above the 1000-byte cap. -/
def c4_frame : List ℕ := List.replicate 1001 0

def c5_piece : ChessPiece := ⟨.rook, .down, (0, 0)⟩

def c5_board : Board := fun _ => none

/-- A board holding a "down" piece on (0, 3), the destination square. -/
def c9_board : Board := fun p =>
  if p = ((0 : ℤ), (3 : ℤ)) then some ⟨.knight, .down, (0, 3)⟩ else none

/-- A board holding an "up" pawn on (4, 4). -/
def c10_board : Board := fun p =>
  if p = ((4 : ℤ), (4 : ℤ)) then some ⟨.pawn, .up, (4, 4)⟩ else none

/-- Membership in a range-cleaned move set forces the range predicate. -/
theorem mem_clean_moves {s : Finset Pos} {m : Pos} (h : m ∈ clean_moves s) :
    check_range m 0 8 = true :=
  (Finset.mem_filter.mp h).2

/-- C1: for a "down" Rook at (0, 0) with an opposing piece on (0, 3) and
file 0 otherwise empty, check_move accepts destination (0, 3) - but it
ALSO accepts destination (0, 5) beyond the blocker, returning the nonempty
filtered move set, because _check_blocks tolerates one occupied square
anywhere on the path rather than only at the final square. The claim that
(0, 5) is rejected therefore fails on the code. -/
theorem c1_rook_beyond_blocker_accepted :
    Rook.check_move Color.down ((0 : ℤ), (0 : ℤ)) (0, 3) c1_board =
      some {(0, 1), (0, 2), (0, 3)} ∧
    Rook.check_move Color.down ((0 : ℤ), (0 : ℤ)) (0, 5) c1_board =
      some {(0, 1), (0, 2), (0, 3), (0, 4), (0, 5)} := by
  decide

/-- C2: Rook.find at (0, 0) returns 15 squares, the whole rank 0 and file
0 INCLUDING the own square (0, 0): the subtraction in _clean_moves removes
the tuple (self, x, y), never a coordinate pair, so the own square stays
in every generated set and the claimed 14-square result fails on the
code. -/
theorem c2_rook_find_includes_own_square :
    ((0 : ℤ), (0 : ℤ)) ∈ Rook.find 0 0 ∧ (Rook.find 0 0).card = 15 := by
  decide

/-- C3: Queen.check_move applies only the line filter to the union of the
rook and bishop destination sets, so its result never depends on the
board; on a board with same-coloured pieces both on the path at (0, 1) and
on the destination (0, 3), the destination is still reported among the
legal squares. -/
theorem c3_queen_ignores_board :
    (∀ (pos endP : Pos) (b b' : Board),
        Queen.check_move pos endP b = Queen.check_move pos endP b') ∧
    (0, 3) ∈ Queen.check_move ((0 : ℤ), (0 : ℤ)) (0, 3) c3_board := by
  exact ⟨fun pos endP b b' => rfl, by decide⟩

/-- C4: on a 1001-byte frame that decodes to a valid join_queue message,
received_message does close the connection with code 1856 and reason
"message too long", but processing continues: the JSON decode is attempted
and the handler is dispatched, because the oversize branch does not
return. The claim that no further processing occurs fails on the code. -/
theorem c4_oversize_frame_still_processed :
    Sockets.received_message c4_decode c4_frame =
      ⟨[(some 1856, "message too long")], true, some ⟨"join_queue", 7⟩,
        false⟩ := by
  decide

/-- C5: Piece.move empties the vacated square, stores end as the piece
position, stores the updated piece at the end square (overwriting any
occupant), and leaves every other square unchanged. -/
theorem c5_piece_move_effects (p : ChessPiece) (endP : Pos) (b : Board)
    (h : endP ≠ p.position) :
    (Piece.move p endP b).2 p.position = none ∧
    (Piece.move p endP b).1.position = endP ∧
    (Piece.move p endP b).2 endP = some ((Piece.move p endP b).1) ∧
    ∀ q, q ≠ p.position → q ≠ endP → (Piece.move p endP b).2 q = b q := by
  refine ⟨?_, rfl, ?_, ?_⟩
  · show (if p.position = endP then some { p with position := endP }
      else if p.position = p.position then none else b p.position) = none
    rw [if_neg (Ne.symm h), if_pos rfl]
  · show (if endP = endP then some { p with position := endP }
      else if endP = p.position then none else b endP) =
      some { p with position := endP }
    rw [if_pos rfl]
  · intro q hq1 hq2
    show (if q = endP then some { p with position := endP }
      else if q = p.position then none else b q) = b q
    rw [if_neg hq2, if_neg hq1]

/-- C5 witness: the move effects at a concrete rook, destination and
board. -/
theorem c5_piece_move_effects_witness :
    (Piece.move c5_piece (0, 3) c5_board).2 (0, 0) = none ∧
    (Piece.move c5_piece (0, 3) c5_board).1.position = (0, 3) ∧
    (Piece.move c5_piece (0, 3) c5_board).2 (0, 3) =
      some ((Piece.move c5_piece (0, 3) c5_board).1) ∧
    (Piece.move c5_piece (0, 3) c5_board).2 (5, 5) = c5_board (5, 5) := by
  have h := c5_piece_move_effects c5_piece (0, 3) c5_board (by decide)
  exact ⟨h.1, h.2.1, h.2.2.1, h.2.2.2 (5, 5) (by decide) (by decide)⟩

/-- C6: for every decoded message, an invalid type yields the
unexpected-type error whatever the data holds (the type check runs first),
a valid type with absent data yields the no-data error, and the handler of
the type is invoked exactly when both checks pass; the errors are the
value process_message returns, nothing catches them locally. -/
theorem c6_message_validation_order {α : Type} (m : Sockets.JsonMsg α) :
    ((∀ t, m.type_ = some t → t ∉ Sockets.type_funcs) →
        Sockets.process_message m = .error .unexpectedType) ∧
    (∀ t, m.type_ = some t → t ∈ Sockets.type_funcs → m.data = none →
        Sockets.process_message m = .error .noData) ∧
    (∀ t d, m.type_ = some t → t ∈ Sockets.type_funcs → m.data = some d →
        Sockets.process_message m = .ok ⟨t, d⟩) := by
  refine ⟨?_, ?_, ?_⟩
  · intro hall
    unfold Sockets.process_message Sockets.parse_input
    cases hmt : m.type_ with
    | none => rfl
    | some t => simp [hall t hmt]
  · intro t hmt hmem hdata
    unfold Sockets.process_message Sockets.parse_input
    rw [hmt, hdata]
    simp [hmem]
  · intro t d hmt hmem hdata
    unfold Sockets.process_message Sockets.parse_input
    rw [hmt, hdata]
    simp [hmem]

/-- C7: every destination any find returns passes the 0..8 range check on
both coordinates, so a square with a coordinate outside [0, 8) is never a
member of any piece destination set. -/
theorem c7_find_destinations_in_range (x y : ℤ) (c : Color) (m : Pos) :
    (m ∈ Rook.find x y → check_range m 0 8 = true) ∧
    (m ∈ Bishop.find x y → check_range m 0 8 = true) ∧
    (m ∈ Knight.find x y → check_range m 0 8 = true) ∧
    (m ∈ Pawn.find c x y → check_range m 0 8 = true) ∧
    (m ∈ King.find x y → check_range m 0 8 = true) ∧
    (m ∈ Queen.find x y → check_range m 0 8 = true) ∧
    (check_range m 0 8 = true ↔
      (0 ≤ m.1 ∧ m.1 < 8) ∧ (0 ≤ m.2 ∧ m.2 < 8)) := by
  refine ⟨mem_clean_moves, mem_clean_moves, mem_clean_moves,
    mem_clean_moves, mem_clean_moves, ?_, ?_⟩
  · intro hm
    rcases Finset.mem_union.mp hm with h | h
    exacts [mem_clean_moves h, mem_clean_moves h]
  · simp [check_range, and_assoc]

/-- C8: a "down" pawn at (4, 6) has destinations {(4, 5), (4, 4)}, the
same pawn at (4, 5) has destinations {(4, 4)} only, and in general the
two-squares-forward destination belongs to find exactly when the pawn
stands on its colour-derived initial rank (6 with step -1 for "down", 1
with step 1 otherwise) and that square is in range. -/
theorem c8_pawn_two_square_initial_rank (c : Color) (x y : ℤ) :
    Pawn.find Color.down 4 6 = {(4, 5), (4, 4)} ∧
    Pawn.find Color.down 4 5 = {(4, 4)} ∧
    ((x, y + Pawn.y_add c * 2) ∈ Pawn.find c x y ↔
      y = Pawn.y_initial c ∧
        check_range (x, y + Pawn.y_add c * 2) 0 8 = true) := by
  refine ⟨by decide, by decide, ?_⟩
  have hadd : Pawn.y_add c ≠ 0 := by cases c <;> decide
  unfold Pawn.find clean_moves
  by_cases hy : y = Pawn.y_initial c
  · rw [if_pos hy]
    simp [Finset.mem_filter, hy]
  · rw [if_neg hy]
    simp only [Finset.mem_filter, Finset.mem_singleton]
    constructor
    · rintro ⟨hpair, -⟩
      rw [Prod.mk.injEq] at hpair
      obtain ⟨-, h2⟩ := hpair
      exact absurd (by omega : Pawn.y_add c = 0) hadd
    · rintro ⟨hy2, -⟩
      exact absurd hy2 hy

/-- C9: whenever the destination square holds a piece of the rook colour,
Rook.check_move returns False (none here), whatever the rest of the board
holds: _check_move_found rejects a same-coloured occupant of the end
square on every path that reaches it, and every other path already
produced False. -/
theorem c9_rook_same_color_rejected (c : Color) (pos endP : Pos)
    (b : Board) (q : ChessPiece) (hq : b endP = some q)
    (hcol : q.color = c) :
    Rook.check_move c pos endP b = none := by
  unfold Rook.check_move
  cases hcb : check_blocks b
      (some (filter_line (Rook.find pos.1 pos.2) pos endP)) with
  | none => rfl
  | some moves =>
    simp only [check_move_found, hq, hcol, if_pos]
    split_ifs <;> rfl

/-- C9 witness: a "down" rook at (0, 0) moving to (0, 3) where a "down"
knight stands is rejected. -/
theorem c9_rook_same_color_rejected_witness :
    Rook.check_move Color.down (0, 0) (0, 3) c9_board = none :=
  c9_rook_same_color_rejected Color.down (0, 0) (0, 3) c9_board
    ⟨.knight, .down, (0, 3)⟩ (by decide) rfl

/-- C10: a pawn off its initial rank whose single forward square is in
range and holds an opposing piece gets a truthy check_move result for that
square, the singleton move set: _check_move_found only rejects
same-coloured occupants and _check_blocks tolerates one occupied square
among the generated set, so the straight-ahead capture is reported
legal. -/
theorem c10_pawn_forward_capture_legal (c : Color) (x y : ℤ) (b : Board)
    (q : ChessPiece) (hrank : y ≠ Pawn.y_initial c)
    (hrange : check_range (x, y + Pawn.y_add c) 0 8 = true)
    (hocc : b (x, y + Pawn.y_add c) = some q) (hcol : q.color ≠ c) :
    Pawn.check_move c (x, y) (x, y + Pawn.y_add c) b =
      some {(x, y + Pawn.y_add c)} := by
  have hfind : Pawn.find c (x, y).1 (x, y).2 =
      {(x, y + Pawn.y_add c)} := by
    unfold Pawn.find clean_moves
    rw [if_neg hrank, Finset.filter_singleton, if_pos hrange]
  unfold Pawn.check_move
  rw [hfind]
  have h1 : check_move_found c (x, y + Pawn.y_add c) b
      (some {(x, y + Pawn.y_add c)}) = some {(x, y + Pawn.y_add c)} := by
    simp [check_move_found, hocc, hcol]
  rw [h1]
  have hfilter : ({(x, y + Pawn.y_add c)} : Finset Pos).filter
      (fun i => b i = none) = ∅ := by
    rw [Finset.filter_singleton, if_neg (by simp [hocc])]
  simp [check_blocks, hfilter]

/-- C10 witness: a "down" pawn at (4, 5), off its initial rank 6, captures
the "up" pawn standing straight ahead on (4, 4). -/
theorem c10_pawn_forward_capture_legal_witness :
    Pawn.check_move Color.down (4, 5) (4, 4) c10_board =
      some {(4, 4)} := by
  have h := c10_pawn_forward_capture_legal Color.down 4 5 c10_board
    ⟨.pawn, .up, (4, 4)⟩ (by decide) (by decide) (by decide) (by decide)
  norm_num [Pawn.y_add] at h
  exact h

end ChessSpec
